import Mathlib

/-!
Verification of the configuration-variable graph vertex and the module-call
address model. Pure functions of the program are embedded as Lean functions;
the evaluation pipeline's step semantics (implemented elsewhere in the
program) is modelled from the specification as an explicit interpreter over
the pipeline's node structure.
-/

/-- Values flowing through the evaluation pipeline. Modelled from the spec:
the configuration values are dynamically typed (string, number, or list). -/
inductive Value where
  | str (s : String)
  | num (n : Int)
  | vlist (vs : List Value)

/-- Declared variable types. Modelled from the spec: declarations carry a
type (string, numeric, or list). -/
inductive VarType where
  | string
  | number
  | list
deriving DecidableEq

/-- A parsed reference occurring inside a raw value. Modelled from the spec:
a reference names a user variable, a module output, or a resource attribute;
any other kind of reference has no discoverable dependency name. -/
inductive InterpolatedVariable where
  | UserVariable (name : String)
  | ModuleVariable (name field : String)
  | ResourceVariable (resourceId : String)
  | UnknownVariable (raw : String)
deriving DecidableEq

/-- Modelled from the spec: `varNameForVar` translates a reference into the
referent's own dependable name (a variable maps to `var.<name>`, a module
output to that output's name, a resource attribute to the resource's id);
a reference with no discoverable name yields the empty string. -/
def varNameForVar : InterpolatedVariable → String
  | .UserVariable name => "var." ++ name
  | .ModuleVariable name field => "module." ++ name ++ ".output." ++ field
  | .ResourceVariable rid => rid
  | .UnknownVariable _ => ""

/-- One piece of a raw unresolved expression: literal text or a reference to
a symbol, to be resolved by interpolation. Modelled from the spec. -/
inductive ExprPart where
  | lit (s : String)
  | ref (name : String)

/-- A raw unresolved configuration: the set of references it mentions
(the `Variables` accessor) and its content, a block mapping variable names
to unresolved expressions. Modelled from the spec for the content part. -/
structure RawConfig where
  Variables : List InterpolatedVariable
  pairs : List (String × List ExprPart)

/-- A resolved configuration block: variable name to resolved value. -/
abbrev ResourceConfig := List (String × Value)

/-- Modelled from the spec: the module tree is consulted only to look up the
declared type of a variable within a module, keyed by module path. -/
abbrev ModuleTree := List (List String × List (String × VarType))

/-- Look up the declared type of variable `name` in the module at `path`. -/
def lookupVarType (mt : ModuleTree) (path : List String) (name : String) :
    Option VarType :=
  match mt with
  | [] => none
  | (p, decls) :: rest =>
    if p = path then
      match decls.lookup name with
      | some ty => some ty
      | none => lookupVarType rest path name
    else lookupVarType rest path name

/-- The externally-owned variable-value table: module name to the variable
values committed for that module. Modelled from the spec. -/
abbrev SymTable := List (String × List (String × Value))

/-- A variable declaration (external input, consumed read-only). -/
structure Variable where
  name : String

/-- A candidate graph vertex, as seen by the destroy-edge policy: it either
exposes the repetition-count dependency capability (with its declared
dependency names) or it does not. Models the dynamic capability check. -/
structure Vertex where
  countDependentOn : Option (List String)

/-- GraphNodeConfigVariable represents a Variable in the config. -/
structure GraphNodeConfigVariable where
  Variable : Variable
  Module : String
  Value : Option RawConfig
  ModuleTree : ModuleTree
  ModulePath : List String

def GraphNodeConfigVariable.Name (n : GraphNodeConfigVariable) : String :=
  "var." ++ n.Variable.name

def GraphNodeConfigVariable.DependableName (n : GraphNodeConfigVariable) :
    List String :=
  [n.Name]

/-- RemoveIfNotTargeted implements RemovableIfNotTargeted. -/
def GraphNodeConfigVariable.RemoveIfNotTargeted
    (_ : GraphNodeConfigVariable) : Bool :=
  true

/-- The loop body of `DependentOn`: collect the translated name of each
reference, skipping references whose translation is empty. -/
def collectVarNames : List InterpolatedVariable → List String
  | [] => []
  | v :: vs =>
    let vn := varNameForVar v
    if vn ≠ "" then vn :: collectVarNames vs else collectVarNames vs

def GraphNodeConfigVariable.DependentOn (n : GraphNodeConfigVariable) :
    List String :=
  match n.Value with
  | none => []
  | some value => collectVarNames value.Variables

def GraphNodeConfigVariable.VariableName (n : GraphNodeConfigVariable) :
    String :=
  n.Variable.name

/-- GraphNodeDestroyEdgeInclude impl. -/
def GraphNodeConfigVariable.DestroyEdgeInclude (n : GraphNodeConfigVariable)
    (v : Vertex) : Bool :=
  match v.countDependentOn with
  | none => false
  | some cv => cv.any fun d => n.DependableName.any fun d2 => d == d2

/-- The evaluation pipeline's node structure. Each constructor corresponds to
one step type; the scratch state the steps share through pointers in the
program is threaded explicitly by the interpreter `runEval` below. -/
inductive EvalNode where
  | EvalNoop
  | EvalSequence (nodes : List EvalNode)
  | EvalInterpolate (config : RawConfig)
  | EvalVariableBlock
  | EvalCoerceMapVariable (modulePath : List String) (moduleTree : ModuleTree)
  | EvalTypeCheckVariable (modulePath : List String) (moduleTree : ModuleTree)
  | EvalSetVariables (module : String)

/-- GraphNodeEvalable impl. -/
def GraphNodeConfigVariable.EvalTree (n : GraphNodeConfigVariable) :
    EvalNode :=
  match n.Value with
  | none => .EvalNoop
  | some value =>
    .EvalSequence
      [ .EvalInterpolate value,
        .EvalVariableBlock,
        .EvalCoerceMapVariable n.ModulePath n.ModuleTree,
        .EvalTypeCheckVariable n.ModulePath n.ModuleTree,
        .EvalSetVariables n.Module ]

/-- Join strings with a dot separator. -/
def joinDot : List String → String
  | [] => ""
  | [s] => s
  | s :: rest => s ++ "." ++ joinDot rest

/-- Modelled from the spec: the textual module-path prefix used to qualify
names in the flattened graph; the root segment itself contributes nothing. -/
def modulePrefixStr (p : List String) : String :=
  joinDot ((p.drop 1).map fun s => "module." ++ s)

/-- Prefix every name in the list with `pfx` followed by a dot; an empty
prefix leaves the list unchanged. Modelled from the spec. -/
def modulePrefixList (result : List String) (pfx : String) : List String :=
  if pfx = "" then result else result.map fun v => pfx ++ "." ++ v

structure GraphNodeConfigVariableFlat where
  GraphNodeConfigVariable : GraphNodeConfigVariable
  PathValue : List String

/-- GraphNodeFlattenable impl. -/
def GraphNodeConfigVariable.Flatten (n : GraphNodeConfigVariable)
    (p : List String) : GraphNodeConfigVariableFlat :=
  { GraphNodeConfigVariable := n, PathValue := p }

def GraphNodeConfigVariableFlat.Name (n : GraphNodeConfigVariableFlat) :
    String :=
  modulePrefixStr n.PathValue ++ "." ++ n.GraphNodeConfigVariable.Name

def GraphNodeConfigVariableFlat.DependableName
    (n : GraphNodeConfigVariableFlat) : List String :=
  [n.Name]

def GraphNodeConfigVariableFlat.DependentOn
    (n : GraphNodeConfigVariableFlat) : List String :=
  let pfx :=
    if 2 < n.PathValue.length then modulePrefixStr n.PathValue.dropLast
    else ""
  modulePrefixList n.GraphNodeConfigVariable.DependentOn pfx

def GraphNodeConfigVariableFlat.Path (n : GraphNodeConfigVariableFlat) :
    List String :=
  if 2 < n.PathValue.length then n.PathValue.dropLast else []

/-- The flattened variant does not redefine the destroy-edge decision: by
method promotion it is the embedded base vertex's decision. -/
def GraphNodeConfigVariableFlat.DestroyEdgeInclude
    (n : GraphNodeConfigVariableFlat) (v : Vertex) : Bool :=
  n.GraphNodeConfigVariable.DestroyEdgeInclude v

/-!
Semantics of the evaluation pipeline. The step implementations are not part
of the vertex code; they are modelled from the spec below: interpolation
resolves each expression against the symbol table (failing on an unresolvable
reference), the variable block is extracted into a scratch mapping, coercion
converts entries best-effort toward their declared types, type-checking
rejects entries that still violate their declared type, and the commit step
writes the scratch mapping into the table under the owning module.
-/

/-- Render a value into text for string interpolation; lists have no
textual rendering. -/
def renderValue : Value → Option String
  | .str s => some s
  | .num i => some (toString i)
  | .vlist _ => none

/-- Look up a variable's committed value anywhere in the table. -/
def lookupRef (t : SymTable) (name : String) : Option Value :=
  match t with
  | [] => none
  | (_, vars) :: rest =>
    match vars.lookup name with
    | some v => some v
    | none => lookupRef rest name

/-- Resolve the parts of one expression to their concatenated text; fails if
any referenced symbol is absent or unrenderable. -/
def interpolateParts (parts : List ExprPart) (t : SymTable) :
    Option String :=
  match parts with
  | [] => some ""
  | .lit s :: rest => (interpolateParts rest t).map fun r => s ++ r
  | .ref name :: rest =>
    match (lookupRef t name).bind renderValue, interpolateParts rest t with
    | some s, some r => some (s ++ r)
    | _, _ => none

/-- Resolve one expression: a bare reference keeps the referent's value and
type; otherwise the parts are concatenated into a string. -/
def interpolateExpr (parts : List ExprPart) (t : SymTable) : Option Value :=
  match parts with
  | [.ref name] => lookupRef t name
  | _ => (interpolateParts parts t).map .str

/-- Resolve a raw configuration block entry by entry; the first failing
entry fails the whole interpolation. -/
def interpolateConfig (pairs : List (String × List ExprPart))
    (t : SymTable) : Option ResourceConfig :=
  match pairs with
  | [] => some []
  | (k, e) :: rest =>
    match interpolateExpr e t, interpolateConfig rest t with
    | some v, some r => some ((k, v) :: r)
    | _, _ => none

/-- Parse a digit character. -/
def charDigit (c : Char) : Option Nat :=
  if 48 ≤ c.toNat ∧ c.toNat ≤ 57 then some (c.toNat - 48) else none

/-- Parse a non-empty run of digit characters into a number. -/
def parseNatAux : List Char → Nat → Option Nat
  | [], acc => some acc
  | c :: cs, acc =>
    match charDigit c with
    | some d => parseNatAux cs (acc * 10 + d)
    | none => none

/-- Modelled from the spec: recognise purely numeric text (with an optional
leading minus sign) as a number for coercion purposes. -/
def parseInt (s : String) : Option Int :=
  match s.data with
  | [] => none
  | c :: cs =>
    if c = '-' then
      match cs with
      | [] => none
      | _ :: _ => (parseNatAux cs 0).map fun m => -(m : Int)
    else (parseNatAux (c :: cs) 0).map fun m => (m : Int)

/-- Best-effort conversion of a value toward a declared type: numeric text
becomes a number when a number is declared, and a non-list value becomes a
singleton list when a list is declared. -/
def coerceValue (ty : VarType) (v : Value) : Value :=
  match ty, v with
  | .number, .str s =>
    match parseInt s with
    | some i => .num i
    | none => .str s
  | .list, .vlist vs => .vlist vs
  | .list, v => .vlist [v]
  | _, v => v

/-- Check a value against a declared type. -/
def typeOk : VarType → Value → Bool
  | .string, .str _ => true
  | .number, .num _ => true
  | .list, .vlist _ => true
  | _, _ => false

/-- Commit a scratch mapping into the table under module `mod`; later
entries for the same module key shadow earlier ones on lookup. -/
def setVars (t : SymTable) (mod : String) (vars : List (String × Value)) :
    SymTable :=
  match t with
  | [] => [(mod, vars)]
  | (m, vs) :: rest =>
    if m = mod then (m, vars ++ vs) :: rest
    else (m, vs) :: setVars rest mod vars

/-- The scratch state shared by the pipeline's steps: the resolved
configuration produced by interpolation and the extracted variable block. -/
structure EvalScratch where
  config : Option ResourceConfig
  VariableValues : List (String × Value)

/-- Run one non-sequence pipeline node: returns whether it succeeded, the
scratch state, and the variable-value table. A failing node reports failure
and leaves the table as it was. A nested sequence node never occurs in the
pipelines the vertex builds (its pipeline is a single flat sequence), so it
is treated as a no-op here. -/
def runStep : EvalNode → EvalScratch → SymTable →
    Bool × EvalScratch × SymTable
  | .EvalNoop, s, t => (true, s, t)
  | .EvalSequence _, s, t => (true, s, t)
  | .EvalInterpolate rc, s, t =>
    match interpolateConfig rc.pairs t with
    | some cfg => (true, { s with config := some cfg }, t)
    | none => (false, s, t)
  | .EvalVariableBlock, s, t =>
    match s.config with
    | some cfg => (true, { s with VariableValues := cfg }, t)
    | none => (false, s, t)
  | .EvalCoerceMapVariable mp mt, s, t =>
    (true,
      { s with
        VariableValues := s.VariableValues.map fun kv =>
          match lookupVarType mt mp kv.1 with
          | some ty => (kv.1, coerceValue ty kv.2)
          | none => kv },
      t)
  | .EvalTypeCheckVariable mp mt, s, t =>
    if s.VariableValues.all fun kv =>
        match lookupVarType mt mp kv.1 with
        | some ty => typeOk ty kv.2
        | none => true
    then (true, s, t)
    else (false, s, t)
  | .EvalSetVariables mod, s, t => (true, s, setVars t mod s.VariableValues)

/-- Run a sequence of pipeline nodes strictly in order; the first failure
aborts the remaining nodes. -/
def runSeq : List EvalNode → EvalScratch → SymTable →
    Bool × EvalScratch × SymTable
  | [], s, t => (true, s, t)
  | n :: ns, s, t =>
    match runStep n s t with
    | (true, s2, t2) => runSeq ns s2 t2
    | (false, s2, t2) => (false, s2, t2)

/-- Run a pipeline: a sequence node runs its children strictly in order,
any other node runs as a single step. -/
def runEval : EvalNode → EvalScratch → SymTable →
    Bool × EvalScratch × SymTable
  | .EvalSequence ns, s, t => runSeq ns s t
  | n, s, t => runStep n s t

/-- The classification of a pipeline node by the kind of step it performs. -/
inductive StepKind where
  | noop
  | seq
  | interpolate
  | variableBlock
  | coerceMap
  | typeCheck
  | setVariables
deriving DecidableEq

def EvalNode.kind : EvalNode → StepKind
  | .EvalNoop => .noop
  | .EvalSequence _ => .seq
  | .EvalInterpolate _ => .interpolate
  | .EvalVariableBlock => .variableBlock
  | .EvalCoerceMapVariable _ _ => .coerceMap
  | .EvalTypeCheckVariable _ _ => .typeCheck
  | .EvalSetVariables _ => .setVariables

/-- The list of steps a pipeline runs: a sequence node's children, and a
single node otherwise. -/
def EvalNode.steps : EvalNode → List EvalNode
  | .EvalSequence ns => ns
  | n => [n]

/-!
The address model (`addrs`): module calls, their keyed instances, and their
outputs, with their canonical string renderings.
-/

/-- The optional repetition key of a module-call instance: absent, an
integer index, or a string key. -/
inductive InstanceKey where
  | NoKey
  | IntKey (i : Int)
  | StringKey (s : String)
deriving DecidableEq

/-- Modelled from the spec: the inline rendering of a present repetition key,
a bracketed index or a bracketed quoted string key. -/
def instanceKeyString : InstanceKey → String
  | .NoKey => ""
  | .IntKey i => "[" ++ toString i ++ "]"
  | .StringKey s => "[\"" ++ s ++ "\"]"

/-- ModuleCall is the address of a call from the current module to a child
module. -/
structure ModuleCall where
  Name : String
deriving DecidableEq

def ModuleCall.String (c : ModuleCall) : String :=
  "module." ++ c.Name

/-- ModuleCallInstance is the address of one instance of a module created
from a module call. -/
structure ModuleCallInstance where
  Call : ModuleCall
  Key : InstanceKey
deriving DecidableEq

/-- Instance returns the address of an instance of the receiver identified
by the given key. -/
def ModuleCall.Instance (c : ModuleCall) (key : InstanceKey) :
    ModuleCallInstance :=
  { Call := c, Key := key }

/-- ModuleCallOutput is the address of a particular named output produced by
an instance of a module call. -/
structure ModuleCallOutput where
  Call : ModuleCallInstance
  Name : String
deriving DecidableEq

/-- Output returns the address of an output of the receiver identified by
its name. -/
def ModuleCallInstance.Output (c : ModuleCallInstance) (name : String) :
    ModuleCallOutput :=
  { Call := c, Name := name }

def ModuleCallInstance.String (c : ModuleCallInstance) : String :=
  if c.Key = .NoKey then c.Call.String
  else "module." ++ c.Call.Name ++ instanceKeyString c.Key

def ModuleCallOutput.String (co : ModuleCallOutput) : String :=
  co.Call.String ++ "." ++ co.Name

/-!
Concrete inputs used to witness the theorems below.
-/

/-- A raw value whose content resolves to the text `prod-west` and which
references the user variable `env` plus one unresolvable reference. -/
def exRawConfig : RawConfig :=
  { Variables := [.UserVariable "env", .UnknownVariable "weird"],
    pairs := [("x", [.lit "prod-west"])] }

/-- A vertex for variable `x` of module `child`, declared numeric. -/
def exNode : GraphNodeConfigVariable :=
  { Variable := { name := "x" },
    Module := "child",
    Value := some exRawConfig,
    ModuleTree := [(["root"], [("x", .number)])],
    ModulePath := ["root"] }

/-- The same vertex with no raw value set. -/
def exNodeNoVal : GraphNodeConfigVariable :=
  { exNode with Value := none }

/-- The vertex flattened at a depth-3 path. -/
def exFlat3 : GraphNodeConfigVariableFlat :=
  exNode.Flatten ["root", "a", "b"]

/-- The vertex flattened at a depth-2 path. -/
def exFlat2 : GraphNodeConfigVariableFlat :=
  exNode.Flatten ["root", "child"]

/-!
Theorems.
-/

theorem append_ne_empty_left (a b : String) (h : a ≠ "") : a ++ b ≠ "" := by
  intro hc
  have hl := congrArg String.length hc
  simp [String.length_append] at hl
  apply h
  cases a with
  | mk d =>
    cases d with
    | nil => rfl
    | cons x xs => simp at hl

theorem modulePrefixStr_ne_empty (p : List String) (h : 2 ≤ p.length) :
    modulePrefixStr p ≠ "" := by
  match p, h with
  | a :: b :: rest, _ =>
    show joinDot (("module." ++ b) :: rest.map fun s => "module." ++ s) ≠ ""
    cases hr : rest.map fun s => "module." ++ s with
    | nil =>
      show "module." ++ b ≠ ""
      exact append_ne_empty_left "module." b (by decide)
    | cons x xs =>
      show ("module." ++ b) ++ "." ++ joinDot (x :: xs) ≠ ""
      exact append_ne_empty_left _ _
        (append_ne_empty_left _ _ (append_ne_empty_left "module." b (by decide)))

/-- Shared characterisation of the destroy-edge decision: the edge is kept
exactly when the candidate exposes the count-dependency capability and one
of its declared names is among this vertex's dependable names. -/
theorem destroyEdgeInclude_spec (n : GraphNodeConfigVariable) (v : Vertex) :
    n.DestroyEdgeInclude v = true ↔
      ∃ ds, v.countDependentOn = some ds ∧ ∃ d ∈ ds, d ∈ n.DependableName := by
  unfold GraphNodeConfigVariable.DestroyEdgeInclude
  cases h : v.countDependentOn with
  | none => simp
  | some ds =>
    simp [List.any_eq_true, GraphNodeConfigVariable.DependableName]

/-- C1: the variable vertex keeps a destroy edge from candidate source `v`
iff `v` exposes the repetition-count dependency capability and its declared
count-dependency names intersect this vertex's dependable-name set; a
candidate without the capability, or with no matching name, is rejected. -/
theorem C1_destroyEdgeInclude_iff (n : GraphNodeConfigVariable) (v : Vertex) :
    n.DestroyEdgeInclude v = true ↔
      ∃ ds, v.countDependentOn = some ds ∧ ∃ d ∈ ds, d ∈ n.DependableName :=
  destroyEdgeInclude_spec n v

/-- C9: RemoveIfNotTargeted returns true for every configuration variable
vertex, unconditionally. -/
theorem C9_removeIfNotTargeted_true (n : GraphNodeConfigVariable) :
    n.RemoveIfNotTargeted = true :=
  rfl

/-- C10: the flattened variant's destroy-edge decision is the embedded base
vertex's decision, so it compares the candidate's count-dependency names
against the base (unflattened) dependable-name set, not against the
flattened, path-prefixed name. -/
theorem C10_flat_destroyEdgeInclude (fn : GraphNodeConfigVariableFlat)
    (v : Vertex) :
    fn.DestroyEdgeInclude v = fn.GraphNodeConfigVariable.DestroyEdgeInclude v
    ∧ (fn.DestroyEdgeInclude v = true ↔
        ∃ ds, v.countDependentOn = some ds ∧
          ∃ d ∈ ds, d ∈ fn.GraphNodeConfigVariable.DependableName) :=
  ⟨rfl, destroyEdgeInclude_spec fn.GraphNodeConfigVariable v⟩

/-- C8: address rendering — a call renders as `module.` plus its name; an
instance with no key renders as its call; an instance with a present key
renders as the call's string with the key's rendering appended inline; an
output renders as its instance's string, a dot, and the output name; and
`Call("db").Instance(NoKey)` renders as `module.db`. -/
theorem C8_address_rendering (nm o : String) (c : ModuleCall)
    (k : InstanceKey) (i : ModuleCallInstance) (hk : k ≠ .NoKey) :
    (ModuleCall.mk nm).String = "module." ++ nm
    ∧ (c.Instance .NoKey).String = c.String
    ∧ (c.Instance k).String = c.String ++ instanceKeyString k
    ∧ (i.Output o).String = i.String ++ "." ++ o
    ∧ ((ModuleCall.mk "db").Instance .NoKey).String = "module.db" := by
  refine ⟨rfl, rfl, ?_, rfl, rfl⟩
  show ModuleCallInstance.String ⟨c, k⟩ = c.String ++ instanceKeyString k
  unfold ModuleCallInstance.String
  simp only [hk, if_false, ite_false]
  show "module." ++ c.Name ++ instanceKeyString k = _
  unfold ModuleCall.String
  rfl

/-- Witness for C8 at a concrete call, key, instance, and output name. -/
theorem C8_witness :
    ((ModuleCall.mk "db").Instance (.IntKey 2)).String = "module.db[2]"
    ∧ (((ModuleCall.mk "db").Instance (.IntKey 2)).Output "addr").String
        = "module.db[2].addr" := by
  have h := C8_address_rendering "db" "addr" (ModuleCall.mk "db")
    (.IntKey 2) ((ModuleCall.mk "db").Instance (.IntKey 2)) (by decide)
  refine ⟨?_, ?_⟩
  · rw [h.2.2.1]
    rfl
  · rw [h.2.2.2.1]
    rfl

/-- Running the noop pipeline node succeeds and changes nothing. -/
theorem runEval_noop (s : EvalScratch) (t : SymTable) :
    runEval .EvalNoop s t = (true, s, t) :=
  rfl

/-- C2: a vertex whose raw value is absent has an empty dependency set and
an evaluation tree that is the no-op pipeline, whose run succeeds and
commits nothing to the variable-value table. -/
theorem C2_noValue_noop (n : GraphNodeConfigVariable)
    (h : n.Value = none) :
    n.DependentOn = [] ∧ n.EvalTree = .EvalNoop
    ∧ ∀ (s : EvalScratch) (t : SymTable),
        runEval n.EvalTree s t = (true, s, t) := by
  refine ⟨?_, ?_, ?_⟩
  · unfold GraphNodeConfigVariable.DependentOn
    rw [h]
  · unfold GraphNodeConfigVariable.EvalTree
    rw [h]
  · intro s t
    unfold GraphNodeConfigVariable.EvalTree
    rw [h]
    rfl

/-- Witness for C2: the concrete vertex with no raw value. -/
theorem C2_witness :
    exNodeNoVal.DependentOn = [] ∧ exNodeNoVal.EvalTree = .EvalNoop
    ∧ runEval exNodeNoVal.EvalTree ⟨none, []⟩ [] = (true, ⟨none, []⟩, []) := by
  have h := C2_noValue_noop exNodeNoVal rfl
  exact ⟨h.1, h.2.1, h.2.2 ⟨none, []⟩ []⟩

/-- The dependency-collection loop keeps, in order, exactly the non-empty
translated names of the references it is given. -/
theorem collectVarNames_eq (l : List InterpolatedVariable) :
    collectVarNames l
      = (l.map varNameForVar).filter fun s => s ≠ "" := by
  induction l with
  | nil => rfl
  | cons v vs ih =>
    unfold collectVarNames
    by_cases hv : varNameForVar v = ""
    · simp [hv, ih]
    · simp [hv, ih]

/-- C3: a vertex whose raw value is present depends on exactly the
translated names of the references found in the raw value, in order, with
every reference whose translation yields no discoverable name silently
dropped; a name is a dependency iff it is the non-empty translation of one
of the raw value's references. -/
theorem C3_dependentOn_translated (n : GraphNodeConfigVariable)
    (rc : RawConfig) (h : n.Value = some rc) :
    n.DependentOn = ((rc.Variables.map varNameForVar).filter fun s => s ≠ "")
    ∧ ∀ name, name ∈ n.DependentOn ↔
        name ≠ "" ∧ ∃ v ∈ rc.Variables, varNameForVar v = name := by
  have hd : n.DependentOn = collectVarNames rc.Variables := by
    unfold GraphNodeConfigVariable.DependentOn
    rw [h]
  constructor
  · rw [hd, collectVarNames_eq]
  · intro name
    rw [hd, collectVarNames_eq]
    simp only [List.mem_filter, List.mem_map, decide_eq_true_eq]
    constructor
    · rintro ⟨⟨v, hv, hvn⟩, hne⟩
      exact ⟨hne, v, hv, hvn⟩
    · rintro ⟨hne, v, hv, hvn⟩
      exact ⟨⟨v, hv, hvn⟩, hne⟩

/-- Witness for C3 at the concrete raw value: the unresolvable reference is
dropped and only `var.env` remains. -/
theorem C3_witness :
    exNode.DependentOn = ["var.env"]
    ∧ ("var.env" ∈ exNode.DependentOn ↔
        "var.env" ≠ "" ∧ ∃ v ∈ exRawConfig.Variables,
          varNameForVar v = "var.env") := by
  have h := C3_dependentOn_translated exNode exRawConfig rfl
  exact ⟨by rw [h.1]; rfl, h.2 "var.env"⟩

/-- C4: a vertex whose raw value is present evaluates through a pipeline of
exactly five steps in this fixed order — interpolate the raw value, extract
the variable block, coerce to declared types, type-check, and finally commit
into the table scoped under the owning module; the commit step is last. -/
theorem C4_evalTree_steps (n : GraphNodeConfigVariable) (rc : RawConfig)
    (h : n.Value = some rc) :
    n.EvalTree.steps.map EvalNode.kind
      = [.interpolate, .variableBlock, .coerceMap, .typeCheck, .setVariables]
    ∧ n.EvalTree.steps.head? = some (.EvalInterpolate rc)
    ∧ n.EvalTree.steps.getLast? = some (.EvalSetVariables n.Module) := by
  have ht : n.EvalTree = .EvalSequence
      [ .EvalInterpolate rc,
        .EvalVariableBlock,
        .EvalCoerceMapVariable n.ModulePath n.ModuleTree,
        .EvalTypeCheckVariable n.ModulePath n.ModuleTree,
        .EvalSetVariables n.Module ] := by
    unfold GraphNodeConfigVariable.EvalTree
    rw [h]
  rw [ht]
  exact ⟨rfl, rfl, rfl⟩

/-- Witness for C4 at the concrete vertex with a present raw value. -/
theorem C4_witness :
    exNode.EvalTree.steps.map EvalNode.kind
      = [.interpolate, .variableBlock, .coerceMap, .typeCheck, .setVariables]
    ∧ exNode.EvalTree.steps.head? = some (.EvalInterpolate exRawConfig)
    ∧ exNode.EvalTree.steps.getLast?
        = some (.EvalSetVariables exNode.Module) :=
  C4_evalTree_steps exNode exRawConfig rfl

/-- If the five-step pipeline sequence reports failure, the variable-value
table comes back unchanged: every step before the commit leaves the table
untouched, the commit step itself never fails, and the sequence aborts at
the first failing step. -/
theorem runSeq_pipeline_no_commit (rc : RawConfig) (mp : List String)
    (mt : ModuleTree) (mod : String) (s : EvalScratch) (t : SymTable)
    (hf : (runSeq
        [ .EvalInterpolate rc,
          .EvalVariableBlock,
          .EvalCoerceMapVariable mp mt,
          .EvalTypeCheckVariable mp mt,
          .EvalSetVariables mod ] s t).1 = false) :
    (runSeq
        [ .EvalInterpolate rc,
          .EvalVariableBlock,
          .EvalCoerceMapVariable mp mt,
          .EvalTypeCheckVariable mp mt,
          .EvalSetVariables mod ] s t).2.2 = t := by
  rcases hi : interpolateConfig rc.pairs t with _ | cfg
  · simp [runSeq, runStep, hi]
  · by_cases hc :
      ((List.map (fun kv =>
          match lookupVarType mt mp kv.1 with
          | some ty => (kv.1, coerceValue ty kv.2)
          | none => kv) cfg).all fun kv =>
          match lookupVarType mt mp kv.1 with
          | some ty => typeOk ty kv.2
          | none => true) = true
    · simp [runSeq, runStep, hi, hc] at hf
    · simp [runSeq, runStep, hi, hc]

/-- C5: when a vertex's pipeline fails in steps 1–4, the remaining steps are
aborted, the commit never runs, and the variable-value table is unchanged,
so dependents never observe a partial write; the failure is the reported
result of the run. -/
theorem C5_failure_no_commit (n : GraphNodeConfigVariable) (rc : RawConfig)
    (s : EvalScratch) (t : SymTable) (h : n.Value = some rc)
    (hf : (runEval n.EvalTree s t).1 = false) :
    (runEval n.EvalTree s t).2.2 = t := by
  have ht : n.EvalTree = .EvalSequence
      [ .EvalInterpolate rc,
        .EvalVariableBlock,
        .EvalCoerceMapVariable n.ModulePath n.ModuleTree,
        .EvalTypeCheckVariable n.ModulePath n.ModuleTree,
        .EvalSetVariables n.Module ] := by
    unfold GraphNodeConfigVariable.EvalTree
    rw [h]
  rw [ht] at hf ⊢
  rw [show ∀ l s t, runEval (.EvalSequence l) s t = runSeq l s t
      from fun _ _ _ => rfl] at hf ⊢
  exact runSeq_pipeline_no_commit rc n.ModulePath n.ModuleTree n.Module s t hf

/-- Witness for C5: the concrete vertex declares `x` numeric while its raw
value resolves to the string `prod-west`; the run fails at type-check and
the table is unchanged. -/
theorem C5_witness :
    (runEval exNode.EvalTree ⟨none, []⟩ []).1 = false
    ∧ (runEval exNode.EvalTree ⟨none, []⟩ []).2.2 = ([] : SymTable) :=
  ⟨by decide, C5_failure_no_commit exNode exRawConfig ⟨none, []⟩ [] rfl (by decide)⟩

/-- C6: flattening at a path of more than two segments prefixes every
dependency name with the parent module's path prefix and reports the parent
path; at a path of two or fewer segments dependency names pass through
unprefixed and the reported path is empty. -/
theorem C6_flat_dependentOn_path (fn : GraphNodeConfigVariableFlat) :
    (2 < fn.PathValue.length →
      fn.DependentOn = fn.GraphNodeConfigVariable.DependentOn.map
        (fun d => modulePrefixStr fn.PathValue.dropLast ++ "." ++ d)
      ∧ fn.Path = fn.PathValue.dropLast)
    ∧ (fn.PathValue.length ≤ 2 →
      fn.DependentOn = fn.GraphNodeConfigVariable.DependentOn
      ∧ fn.Path = []) := by
  constructor
  · intro hlen
    have hpfx : modulePrefixStr fn.PathValue.dropLast ≠ "" := by
      apply modulePrefixStr_ne_empty
      rw [List.length_dropLast]
      omega
    constructor
    · unfold GraphNodeConfigVariableFlat.DependentOn
      simp only [hlen, if_true]
      unfold modulePrefixList
      rw [if_neg hpfx]
    · unfold GraphNodeConfigVariableFlat.Path
      simp [hlen]
  · intro hlen
    have hnot : ¬ 2 < fn.PathValue.length := by omega
    constructor
    · unfold GraphNodeConfigVariableFlat.DependentOn
      simp only [hnot, if_false]
      unfold modulePrefixList
      rw [if_pos rfl]
    · unfold GraphNodeConfigVariableFlat.Path
      simp [hnot]

/-- Witness for C6 at concrete depth-3 and depth-2 paths. -/
theorem C6_witness :
    (exFlat3.DependentOn = exFlat3.GraphNodeConfigVariable.DependentOn.map
        (fun d => modulePrefixStr exFlat3.PathValue.dropLast ++ "." ++ d)
      ∧ exFlat3.Path = exFlat3.PathValue.dropLast)
    ∧ (exFlat2.DependentOn = exFlat2.GraphNodeConfigVariable.DependentOn
      ∧ exFlat2.Path = []) :=
  ⟨(C6_flat_dependentOn_path exFlat3).1 (by decide),
   (C6_flat_dependentOn_path exFlat2).2 (by decide)⟩

/-- C7 counterexample: flattened at the depth-3 path `root.a.b`, the
vertex's name is built from the full bound path (`module.a.module.b.var.x`),
not from the calling module's path minus the last segment, which would give
`module.a.var.x`. -/
theorem C7_counterexample :
    exFlat3.Name = "module.a.module.b.var.x"
    ∧ modulePrefixStr exFlat3.PathValue.dropLast ++ "."
        ++ exFlat3.GraphNodeConfigVariable.Name = "module.a.var.x"
    ∧ exFlat3.Name ≠ modulePrefixStr exFlat3.PathValue.dropLast ++ "."
        ++ exFlat3.GraphNodeConfigVariable.Name := by
  refine ⟨by decide, by decide, by decide⟩

/-- C7 amended: the flattened vertex's name is built from the full bound
path's module prefix (including the variable's own module segment); it is
the reported Path(), used for walker grouping, that excludes the last
segment when the path has more than two segments and is empty otherwise. -/
theorem C7_amended_name_full_path (fn : GraphNodeConfigVariableFlat) :
    fn.Name = modulePrefixStr fn.PathValue ++ "."
        ++ fn.GraphNodeConfigVariable.Name
    ∧ fn.Path
        = (if 2 < fn.PathValue.length then fn.PathValue.dropLast else []) :=
  ⟨rfl, rfl⟩
